import Mathlib

/-!
Verification of the GraphQL-over-HTTP channels handler
(`strawberry/channels/handlers/http_handler.py`).

The Python source is shallowly embedded: bytes are modelled as `String`
(header *names*, whose case matters byte-wise, as `List Nat` of byte
values), dictionaries as association lists in insertion order, and
fallible operations as `Option`.  External collaborators that the
handler calls (Python's `urllib.parse`, `json`, Django's multipart
parser, the strawberry base view) are embedded at the granularity the
handler observes; each such definition documents what it models.
-/

namespace StrawberryChannels

/-! ## Query-string parsing (`urllib.parse.parse_qs`)

`ChannelsRequestAdapter.query_params` calls
`parse_qs(query_params_str, keep_blank_values=True)` and keeps
`value[0]` for every key.  We embed CPython's `urllib.parse.parse_qsl`
(default `separator="&"`, `strict_parsing=False`), restricted to
single-byte percent-escapes (exact for ASCII payloads), and the
`parse_qs` dict-of-lists construction on top of it. -/

/-- Value of a hexadecimal digit, as in CPython's `unquote`. -/
def hexDigit (c : Char) : Option Nat :=
  if '0' ≤ c ∧ c ≤ '9' then some (c.toNat - '0'.toNat)
  else if 'a' ≤ c ∧ c ≤ 'f' then some (c.toNat - 'a'.toNat + 10)
  else if 'A' ≤ c ∧ c ≤ 'F' then some (c.toNat - 'A'.toNat + 10)
  else none

/-- CPython `urllib.parse.unquote` on a character list: `%xx` with two
hex digits becomes the byte `xx`; a `%` not followed by two hex digits
is kept literally.  (Multi-byte UTF-8 escape sequences are out of the
model's scope; each escaped byte is mapped to the code point of the
same value, which agrees with CPython for ASCII.) -/
def unquoteChars : List Char → List Char
  | [] => []
  | c :: rest =>
    if c = '%' then
      match rest with
      | a :: b :: rest2 =>
        match hexDigit a, hexDigit b with
        | some ha, some hb => Char.ofNat (16 * ha + hb) :: unquoteChars rest2
        | _, _ => '%' :: unquoteChars (a :: b :: rest2)
      | r => c :: unquoteChars r
    else c :: unquoteChars rest

/-- `nv[0].replace('+', ' ')` / `nv[1].replace('+', ' ')` followed by
`unquote`: the decoding CPython applies to each name and value. -/
def decodePart (cs : List Char) : String :=
  String.mk (unquoteChars (cs.map (fun c => if c = '+' then ' ' else c)))

/-- `qs.split(separator)` for the one-character separator `&`
(CPython `str.split` with an explicit separator: empty chunks are
produced, the empty string yields one empty chunk). -/
def splitAmp : List Char → List (List Char)
  | [] => [[]]
  | c :: rest =>
    if c = '&' then [] :: splitAmp rest
    else
      match splitAmp rest with
      | [] => [[c]]
      | g :: gs => (c :: g) :: gs

/-- `name_value.split('=', 1)`: `none` when there is no `=` in the
chunk, otherwise the part before the first `=` and everything after
it. -/
def splitPairChars : List Char → Option (List Char × List Char)
  | [] => none
  | c :: rest =>
    if c = '=' then some ([], rest)
    else
      match splitPairChars rest with
      | none => none
      | some (n, v) => some (c :: n, v)

/-- CPython `urllib.parse.parse_qsl(qs, keep_blank_values=keepBlank)`:
empty chunks are skipped; a chunk without `=` is kept (with an empty
value) only when `keepBlank`; a chunk `name=` is likewise kept only
when `keepBlank`; names and values are `+`- and percent-decoded. -/
def parse_qsl (keepBlank : Bool) (qs : String) : List (String × String) :=
  (splitAmp qs.data).filterMap (fun nv =>
    if nv.isEmpty then none
    else
      match splitPairChars nv with
      | none =>
        if keepBlank then some (decodePart nv, "") else none
      | some (n, v) =>
        if v.isEmpty && !keepBlank then none
        else some (decodePart n, decodePart v))

/-- One step of CPython `parse_qs`'s
`parsed_result.setdefault(name, []).append(value)`: append the value
to the existing entry for the key, or append a fresh singleton entry
(dict insertion order). -/
def addPair (acc : List (String × List String)) (p : String × String) :
    List (String × List String) :=
  if acc.any (fun q => q.1 = p.1) then
    acc.map (fun q => if q.1 = p.1 then (q.1, q.2 ++ [p.2]) else q)
  else
    acc ++ [(p.1, [p.2])]

/-- CPython `urllib.parse.parse_qs`: group the `parse_qsl` pairs into
a dict of lists, left to right. -/
def parse_qs (keepBlank : Bool) (qs : String) : List (String × List String) :=
  (parse_qsl keepBlank qs).foldl addPair []

/-- First (and in lookup order only) value of a key in an association
list — the dict lookup of the embedding. -/
def lookupQ (k : String) : List (String × String) → Option String
  | [] => none
  | p :: rest => if p.1 = k then some p.2 else lookupQ k rest

/-- Lookup in the grouped dict-of-lists. -/
def lookupG (k : String) : List (String × List String) → Option (List String)
  | [] => none
  | q :: rest => if q.1 = k then some q.2 else lookupG k rest

/-- `ChannelsRequestAdapter.query_params`: parse the consumer's query
string with `keep_blank_values=True` and keep `value[0]` for each key
(the source comment: "Only one argument per key is expected here"). -/
def query_params_of (qs : String) : List (String × String) :=
  (parse_qs true qs).map (fun q => (q.1, q.2.headD ""))

/-! ## The request model

The channels consumer scope, as read by the adapter: the raw query
string, the HTTP method, and the raw header list (header names are
byte strings, modelled as lists of byte values since their
lower-casing is byte-wise; decoded values are modelled as `String`). -/

structure ConsumerScope where
  query_string : String
  method : String
  raw_headers : List (List Nat × String)

/-- The `Request` dataclass: the consumer scope plus the body bytes
captured once by `handle`. -/
structure Request where
  consumer : ConsumerScope
  body : String

/-- ASCII lower-casing of one byte: the effect of
`header_name.decode().lower()` on each ASCII byte of a header name. -/
def byteLower (b : Nat) : Nat := if 65 ≤ b ∧ b ≤ 90 then b + 32 else b

/-- Lower-casing of a whole header name. -/
def nameLower (n : List Nat) : List Nat := n.map byteLower

/-- `ChannelsRequestAdapter.headers`: every header name of the
consumer scope, lower-cased, paired with its decoded value. -/
def headersOf (r : Request) : List (List Nat × String) :=
  r.consumer.raw_headers.map (fun p => (nameLower p.1, p.2))

/-- Dict lookup over the header association list.  The `headers`
property is a dict comprehension, so when two delivered names collapse
to the same lower-cased key the later value wins: the lookup prefers
the last matching entry. -/
def lookupH (k : List Nat) : List (List Nat × String) → Option String
  | [] => none
  | p :: rest =>
    match lookupH k rest with
    | some v => some v
    | none => if p.1 = k then some p.2 else none

/-- The bytes of an ASCII string literal, used for header keys. -/
def strBytes (s : String) : List Nat := s.data.map Char.toNat

/-- `ChannelsRequestAdapter.content_type`:
`self.headers.get("content-type", None)`. -/
def content_type (r : Request) : Option String :=
  lookupH (strBytes "content-type") (headersOf r)

/-- The `CONTENT_LENGTH` value `get_form_data` hands to the multipart
parser: `self.headers.get("content-length", "0")`. -/
def content_length_header (r : Request) : String :=
  (lookupH (strBytes "content-length") (headersOf r)).getD "0"

/-- `ChannelsRequestAdapter.get_body`: the captured body bytes of the
`Request` dataclass. -/
def get_body (r : Request) : String := r.body

/-! ## Operation types -/

inductive OperationType where
  | query
  | mutation
  | subscription
deriving DecidableEq

/-- Modelled from the spec: `OperationType.from_http` (defined in
`strawberry.types.graphql`, outside the embedded source) — `GET`
allows only queries, `POST` allows all operation types; any other
method is rejected with "method not allowed" before this set is
consulted, modelled as the empty set. -/
def OperationType.from_http (method : String) : List OperationType :=
  if method = "GET" then [OperationType.query]
  else if method = "POST" then
    [OperationType.query, OperationType.mutation, OperationType.subscription]
  else []

/-- The allowed-operation-types computation of
`SyncGraphQLHTTPConsumer.execute`: start from
`OperationType.from_http(method)` and remove `QUERY` when the method
is `GET` and `allow_queries_via_get` is false. -/
def allowedOperationTypes (method : String) (allow_queries_via_get : Bool) :
    List OperationType :=
  let a := OperationType.from_http method
  if ¬ allow_queries_via_get = true ∧ method = "GET" then
    a.filter (fun t => ¬ t = OperationType.query)
  else a

/-- Modelled from the spec: the engine independently verifies that the
submitted operation's type is a member of `allowed_operation_types`
passed to `schema.execute_sync`, failing before any resolver runs on
a mismatch. -/
def engineAccepts (allowed : List OperationType) (op : OperationType) : Bool :=
  allowed.any (fun t => t = op)

/-! ## Multipart form data -/

/-- JSON values, the codomain of `json.loads`. -/
inductive Json where
  | null
  | bool (b : Bool)
  | num (n : Int)
  | str (s : String)
  | arr (elems : List Json)
  | obj (fields : List (String × Json))

/-- `strawberry.http.types.FormData`: the uploaded files and the
`form` dict, whose two entries `get_form_data` always populates. -/
structure FormData where
  files : List (String × String)
  form_operations : Json
  form_map : Json

/-- `ChannelsRequestAdapter.get_form_data`: build the multipart parser
from `CONTENT_TYPE = headers.get("content-type")`,
`CONTENT_LENGTH = headers.get("content-length", "0")` and a fresh
in-memory view of the captured body (`BytesIO(self.request.body)`),
then JSON-decode the `operations` and `map` fields of the parsed form,
using `""` as the default for an absent field.  The external
collaborators are passed in as functions: `jsonLoads` models
`json.loads` (`none` = `json.JSONDecodeError`), `multipartParse`
models `MultiPartParser(...).parse()` (`none` = a parser exception);
either exception propagates, so the whole call fails. -/
def get_form_data
    (jsonLoads : String → Option Json)
    (multipartParse : Option String → String → String →
      Option (List (String × String) × List (String × String)))
    (r : Request) : Option FormData := do
  let (querydict, files) ← multipartParse (content_type r)
    (content_length_header r) r.body
  let ops ← jsonLoads ((lookupQ "operations" querydict).getD "")
  let mp ← jsonLoads ((lookupQ "map" querydict).getD "")
  pure { files := files, form_operations := ops, form_map := mp }

/-- Python `int` on a decimal digit string, as applied to the
`CONTENT_LENGTH` value (`none` models a `ValueError`). -/
def strToNat (s : String) : Option Nat :=
  if ¬ s.data = [] ∧ s.data.all Char.isDigit then
    some (s.data.foldl (fun n c => n * 10 + (c.toNat - '0'.toNat)) 0)
  else none

/-- Modelled from the spec: Django's `MultiPartParser` (an external
collaborator), which requires a supplied `content-type` and a
`content-length` that parses to a positive integer; the actual
multipart decoding of the body is abstracted as `decode`. -/
def djangoMultipartParse
    (decode : String → Option (List (String × String) × List (String × String)))
    (ct : Option String) (cl : String) (body : String) :
    Option (List (String × String) × List (String × String)) :=
  match ct with
  | none => none
  | some _ => if (strToNat cl).getD 0 = 0 then none else decode body

/-! ## Response building -/

/-- The `Result` dataclass: final transport response with its field
defaults (`status = 200`, `content_type = "application/json"`,
`headers = None`). -/
structure Result where
  response : String
  status : Nat := 200
  content_type : String := "application/json"
  headers : Option (List (String × String)) := none

/-- Modelled from the spec: `TemporalResponse` (the sub-response,
defined in `strawberry.http.temporal_response`, outside the embedded
source) — a resolver-set optional status code and resolver-set
headers. -/
structure TemporalResponse where
  status_code : Option Nat
  headers : List (String × String)

/-- `GraphQLHTTPConsumer.create_response`: make a `Result` from the
serialized response payload (the `json.dumps` output is taken as the
already-serialized `response_data` string), overriding the default 200
status when `sub_response.status_code` is truthy and attaching the
resolver headers when the headers dict is non-empty (Python truthiness
of `if sub_response.status_code:` / `if sub_response.headers:`). -/
def create_response (response_data : String)
    (sub_response : TemporalResponse) : Result :=
  let result : Result := { response := response_data }
  let result :=
    match sub_response.status_code with
    | some c => if ¬ c = 0 then { result with status := c } else result
    | none => result
  if sub_response.headers.isEmpty then result
  else { result with headers := some sub_response.headers }

/-- Outcome of `self.run(request)` inside `handle`: a built `Result`,
or an `HTTPException` (status code and plain-text reason, modelled
from the spec since `strawberry.http.exceptions` is outside the
embedded source). -/
inductive RunOutcome where
  | ok (response : Result)
  | httpError (status_code : Nat) (reason : String)

/-- What `handle` passes to `self.send_response`. -/
structure SentResponse where
  status : Nat
  body : String
  headers : List (String × String)

/-- `GraphQLHTTPConsumer.handle`, after `run`: on success, replace a
`None` headers dict by `{}`, add `Content-Type: result.content_type`
unless the exact key `Content-Type` is already present, and send
status/body/headers; on `HTTPException`, send the exception's status
code with the encoded plain-text reason and no headers (the
`send_response` default). -/
def handle : RunOutcome → SentResponse
  | RunOutcome.ok response =>
    let hs := response.headers.getD []
    let hs :=
      if hs.any (fun p => p.1 = "Content-Type") then hs
      else hs ++ [("Content-Type", response.content_type)]
    { status := response.status, body := response.response, headers := hs }
  | RunOutcome.httpError status_code reason =>
    { status := status_code, body := reason, headers := [] }

/-- `GraphQLHTTPConsumer.render_graphiql`: a `Result` holding the
GraphiQL page for the configured `subscriptions_enabled` flag, with
content type `text/html`.  `get_graphiql_html` (HTML templating, an
external collaborator) is passed in as a function of that flag; the
`request` argument is taken, as in the source, but not read. -/
def render_graphiql (get_graphiql_html : Bool → String)
    (subscriptions_enabled : Bool) (request : Request) : Result :=
  { response := get_graphiql_html subscriptions_enabled,
    content_type := "text/html" }

/-- A call against the request adapter's body accessors, for stating
that repeated calls in any order observe the same captured bytes. -/
inductive BodyCall where
  | getBody
  | getFormData

/-- The observation of one body accessor call. -/
def callResult
    (jsonLoads : String → Option Json)
    (multipartParse : Option String → String → String →
      Option (List (String × String) × List (String × String)))
    (r : Request) : BodyCall → String ⊕ Option FormData
  | BodyCall.getBody => Sum.inl (get_body r)
  | BodyCall.getFormData => Sum.inr (get_form_data jsonLoads multipartParse r)

/-- A sequence of body accessor calls, observed in order. -/
def runBodyCalls
    (jsonLoads : String → Option Json)
    (multipartParse : Option String → String → String →
      Option (List (String × String) × List (String × String)))
    (r : Request) : List BodyCall → List (String ⊕ Option FormData)
  | [] => []
  | c :: rest =>
    callResult jsonLoads multipartParse r c
      :: runBodyCalls jsonLoads multipartParse r rest

/-! ### Lemmas about the `parse_qs` grouping -/

theorem lookupQ_map_f (f : List String → String) (k : String)
    (gs : List (String × List String)) :
    lookupQ k (gs.map (fun q => (q.1, f q.2)))
      = (lookupG k gs).map f := by
  induction gs with
  | nil => rfl
  | cons q rest ih =>
    by_cases h : q.1 = k
    · simp [lookupQ, lookupG, h]
    · simp [lookupQ, lookupG, h, ih]

theorem lookupG_map_update (p : String × String) (k : String) (h : p.1 ≠ k)
    (acc : List (String × List String)) :
    lookupG k (acc.map (fun q => if q.1 = p.1 then (q.1, q.2 ++ [p.2]) else q))
      = lookupG k acc := by
  induction acc with
  | nil => rfl
  | cons q rest ih =>
    by_cases hq : q.1 = p.1
    · have hk : ¬ q.1 = k := fun hh => h (hq.symm.trans hh)
      simp [lookupG, hq, hk, h, ih]
    · by_cases hk : q.1 = k
      · simp [lookupG, hq, hk, Ne.symm h]
      · simp [lookupG, hq, hk, ih]

theorem lookupG_append_single (k : String) (e : String × List String)
    (h : e.1 ≠ k) (acc : List (String × List String)) :
    lookupG k (acc ++ [e]) = lookupG k acc := by
  induction acc with
  | nil => simp [lookupG, h]
  | cons q rest ih =>
    by_cases hk : q.1 = k
    · simp [lookupG, hk]
    · simp [lookupG, hk, ih]

theorem lookupG_addPair_ne (acc : List (String × List String))
    (p : String × String) (k : String) (h : p.1 ≠ k) :
    lookupG k (addPair acc p) = lookupG k acc := by
  unfold addPair
  split
  · exact lookupG_map_update p k h acc
  · exact lookupG_append_single k (p.1, [p.2]) h acc

theorem lookupG_map_update_self (p : String × String)
    (acc : List (String × List String))
    (hany : acc.any (fun q => q.1 = p.1) = true) :
    lookupG p.1 (acc.map (fun q => if q.1 = p.1 then (q.1, q.2 ++ [p.2]) else q))
      = some ((lookupG p.1 acc).getD [] ++ [p.2]) := by
  induction acc with
  | nil => simp at hany
  | cons q rest ih =>
    by_cases hq : q.1 = p.1
    · simp [lookupG, hq]
    · have hrest : rest.any (fun q => q.1 = p.1) = true := by
        simpa [hq] using hany
      simp [lookupG, hq, ih hrest]

theorem lookupG_append_self (p : String × String)
    (acc : List (String × List String))
    (hany : acc.any (fun q => q.1 = p.1) = false) :
    lookupG p.1 (acc ++ [(p.1, [p.2])])
      = some ((lookupG p.1 acc).getD [] ++ [p.2]) := by
  induction acc with
  | nil => simp [lookupG]
  | cons q rest ih =>
    have hq : ¬ q.1 = p.1 := by
      simp only [List.any_cons, Bool.or_eq_false_iff] at hany
      simpa using hany.1
    have hrest : rest.any (fun q => q.1 = p.1) = false := by
      simp only [List.any_cons, Bool.or_eq_false_iff] at hany
      exact hany.2
    simp [lookupG, hq, ih hrest]

theorem lookupG_addPair_self (acc : List (String × List String))
    (p : String × String) :
    lookupG p.1 (addPair acc p)
      = some ((lookupG p.1 acc).getD [] ++ [p.2]) := by
  unfold addPair
  split
  · rename_i hany
    exact lookupG_map_update_self p acc hany
  · rename_i hany
    exact lookupG_append_self p acc (Bool.eq_false_iff.mpr hany)

theorem lookupG_foldl (ps : List (String × String))
    (acc : List (String × List String)) (k : String)
    (hne : ∀ l, lookupG k acc = some l → l ≠ []) :
    (lookupG k (List.foldl addPair acc ps)).map (fun l => l.headD "")
      = (match lookupG k acc with
         | some l => some (l.headD "")
         | none => lookupQ k ps) := by
  induction ps generalizing acc with
  | nil =>
    cases h : lookupG k acc <;> simp [h, lookupQ]
  | cons p rest ih =>
    simp only [List.foldl_cons]
    by_cases hp : p.1 = k
    · have h2 := lookupG_addPair_self acc p
      rw [hp] at h2
      rw [ih (addPair acc p) (by rw [h2]; intro l hl; cases hl; simp)]
      rw [h2]
      cases h : lookupG k acc with
      | none => simp [h, lookupQ, hp]
      | some l =>
        have hl := hne l h
        cases l with
        | nil => exact absurd rfl hl
        | cons a t => simp [h]
    · have h1 := lookupG_addPair_ne acc p k hp
      rw [ih (addPair acc p) (by rw [h1]; exact hne), h1]
      cases h : lookupG k acc with
      | none => simp [h, lookupQ, hp]
      | some l => simp [h]

theorem lookupQ_query_params (qs : String) (k : String) :
    lookupQ k (query_params_of qs) = lookupQ k (parse_qsl true qs) := by
  unfold query_params_of parse_qs
  rw [lookupQ_map_f (fun l => l.headD "")]
  rw [lookupG_foldl (parse_qsl true qs) [] k (by intro l hl; simp [lookupG] at hl)]
  simp [lookupG]

/-- Claim C2: in `query_params`, a repeated query-string key retains
only the value of its first occurrence — for every key, the dict
lookup agrees with the first matching pair of the flat
`parse_qsl` pair list — and in particular parsing
`variables=%7B%22a%22%3A1%7D&variables=%7B%22a%22%3A2%7D` yields
`variables = {"a":1}`. -/
theorem claim_c2_first_occurrence_wins :
    (∀ (qs k : String),
      lookupQ k (query_params_of qs) = lookupQ k (parse_qsl true qs)) ∧
    query_params_of "variables=%7B%22a%22%3A1%7D&variables=%7B%22a%22%3A2%7D"
      = [("variables", "\x7b\"a\":1\x7d")] := by
  constructor
  · exact lookupQ_query_params
  · decide

/-! ### Blank values are kept (`keep_blank_values=True`) -/

theorem unquoteChars_no_pct (cs : List Char) (h : '%' ∉ cs) :
    unquoteChars cs = cs := by
  induction cs with
  | nil => rfl
  | cons c rest ih =>
    simp only [List.mem_cons, not_or] at h
    have hc : ¬ c = '%' := fun hh => h.1 hh.symm
    unfold unquoteChars
    rw [if_neg hc, ih h.2]

theorem map_plus_id (cs : List Char) (h : '+' ∉ cs) :
    cs.map (fun c => if c = '+' then ' ' else c) = cs := by
  induction cs with
  | nil => rfl
  | cons c rest ih =>
    simp only [List.mem_cons, not_or] at h
    have hc : ¬ c = '+' := fun hh => h.1 hh.symm
    simp [hc, ih h.2]

theorem decodePart_plain (cs : List Char) (hp : '%' ∉ cs) (hpl : '+' ∉ cs) :
    decodePart cs = String.mk cs := by
  unfold decodePart
  rw [map_plus_id cs hpl, unquoteChars_no_pct cs hp]

theorem splitAmp_no_amp (cs : List Char) (h : '&' ∉ cs) :
    splitAmp cs = [cs] := by
  induction cs with
  | nil => rfl
  | cons c rest ih =>
    simp only [List.mem_cons, not_or] at h
    have hc : ¬ c = '&' := fun hh => h.1 hh.symm
    simp [splitAmp, hc, ih h.2]

theorem splitPairChars_append (cs tail : List Char) (h : '=' ∉ cs) :
    splitPairChars (cs ++ '=' :: tail) = some (cs, tail) := by
  induction cs with
  | nil => simp [splitPairChars]
  | cons c rest ih =>
    simp only [List.mem_cons, not_or] at h
    have hc : ¬ c = '=' := fun hh => h.1 hh.symm
    simp [splitPairChars, hc, ih h.2]

theorem query_params_single_blank (k : String)
    (h1 : '&' ∉ k.data) (h2 : '=' ∉ k.data)
    (h3 : '%' ∉ k.data) (h4 : '+' ∉ k.data) :
    query_params_of (k ++ "=") = [(k, "")] := by
  have hmk : String.mk k.data = k := by cases k; rfl
  have hdata : (k ++ "=").data = k.data ++ ['='] := by cases k; rfl
  have hamp : '&' ∉ k.data ++ ['='] := by
    simp only [List.mem_append, List.mem_singleton, not_or]
    exact ⟨h1, by decide⟩
  have hqsl : parse_qsl true (k ++ "=") = [(k, "")] := by
    unfold parse_qsl
    rw [hdata, splitAmp_no_amp _ hamp]
    have hne : (k.data ++ ['=']).isEmpty = false := by
      cases k.data <;> rfl
    have hsplit : splitPairChars (k.data ++ ['=']) = some (k.data, []) :=
      splitPairChars_append k.data [] h2
    simp [List.filterMap, hne, hsplit, decodePart]
    constructor
    · rw [map_plus_id _ h4, unquoteChars_no_pct _ h3]
    · rfl
  unfold query_params_of parse_qs
  rw [hqsl]
  simp [addPair, lookupG]

/-- Claim C10: `query_params` parses with `keep_blank_values=True`, so
a key with a blank value (for example the query string `query=`) is
included and mapped to the empty string rather than omitted. -/
theorem claim_c10_blank_values_kept :
    (∀ k : String, '&' ∉ k.data → '=' ∉ k.data → '%' ∉ k.data →
      '+' ∉ k.data → query_params_of (k ++ "=") = [(k, "")]) ∧
    query_params_of "query=" = [("query", "")] := by
  constructor
  · exact query_params_single_blank
  · decide

/-- Witness for C10: the blank-value theorem applied to the concrete
key `query`. -/
theorem claim_c10_blank_values_kept_witness :
    query_params_of ("query" ++ "=") = [("query", "")] :=
  claim_c10_blank_values_kept.1 "query" (by decide) (by decide) (by decide)
    (by decide)

/-! ### Characterizations of the response builders -/

theorem any_of_lookupQ (k v : String) (hs : List (String × String))
    (h : lookupQ k hs = some v) : hs.any (fun p => p.1 = k) = true := by
  induction hs with
  | nil => simp [lookupQ] at h
  | cons p rest ih =>
    by_cases hp : p.1 = k
    · simp [hp]
    · simp only [lookupQ] at h
      rw [if_neg hp] at h
      simp [hp, ih h]

theorem create_response_eq (response_data : String) (sub : TemporalResponse) :
    create_response response_data sub =
      { response := response_data,
        status :=
          match sub.status_code with
          | some c => if ¬ c = 0 then c else 200
          | none => 200,
        content_type := "application/json",
        headers :=
          if sub.headers.isEmpty then none else some sub.headers } := by
  unfold create_response
  cases hc : sub.status_code with
  | none => cases hh : sub.headers.isEmpty <;> simp [hh]
  | some c =>
    by_cases hc0 : c = 0 <;> cases hh : sub.headers.isEmpty <;>
      simp [hh, hc0]

theorem handle_ok_headers (resp : Result) :
    (handle (RunOutcome.ok resp)).headers
      = if (resp.headers.getD []).any (fun p => p.1 = "Content-Type")
        then resp.headers.getD []
        else resp.headers.getD [] ++ [("Content-Type", resp.content_type)] :=
  rfl

/-! ### Operation-type policy -/

/-- Claim C1: when `allow_queries_via_get` is false, the allowed
operation set computed by `SyncGraphQLHTTPConsumer.execute` for a
`GET` request is empty — `QUERY` is removed from the GET-allowed set —
so the engine's operation-type check rejects every operation type
submitted via GET. -/
theorem claim_c1_get_disallowed_empty :
    allowedOperationTypes "GET" false = [] ∧
    ∀ op : OperationType,
      engineAccepts (allowedOperationTypes "GET" false) op = false := by
  constructor
  · rfl
  · intro op
    cases op <;> rfl

/-! ### Multipart extraction failures -/

/-- Claim C3: `get_form_data` hands the multipart parser the
`content-type` and `content-length` headers (the Django parser —
spec-modelled — fails when `content-type` is absent or the
`content-length` value, which defaults to `"0"`, is not a positive
integer), and it fails whenever the parsed form's `operations` or
`map` field is absent (the `""` default is not valid JSON) or its
value is not valid JSON, so no `FormData` reaches the engine. -/
theorem claim_c3_form_data_failures :
    (∀ jsonLoads decode r, content_type r = none →
      get_form_data jsonLoads (djangoMultipartParse decode) r = none) ∧
    (∀ jsonLoads decode r,
      lookupH (strBytes "content-length") (headersOf r) = none →
      get_form_data jsonLoads (djangoMultipartParse decode) r = none) ∧
    (∀ jsonLoads multipartParse r querydict files,
      multipartParse (content_type r) (content_length_header r) r.body
        = some (querydict, files) →
      jsonLoads "" = none →
      (lookupQ "operations" querydict = none ∨
        lookupQ "map" querydict = none) →
      get_form_data jsonLoads multipartParse r = none) ∧
    (∀ jsonLoads multipartParse r querydict files s,
      multipartParse (content_type r) (content_length_header r) r.body
        = some (querydict, files) →
      lookupQ "operations" querydict = some s → jsonLoads s = none →
      get_form_data jsonLoads multipartParse r = none) ∧
    (∀ jsonLoads multipartParse r querydict files s,
      multipartParse (content_type r) (content_length_header r) r.body
        = some (querydict, files) →
      lookupQ "map" querydict = some s → jsonLoads s = none →
      get_form_data jsonLoads multipartParse r = none) := by
  refine ⟨?_, ?_, ?_, ?_, ?_⟩
  · intro jsonLoads decode r hct
    simp [get_form_data, djangoMultipartParse, hct]
  · intro jsonLoads decode r hcl
    have h0 : content_length_header r = "0" := by
      simp [content_length_header, hcl]
    have hn : (strToNat "0").getD 0 = 0 := by decide
    cases hc : content_type r with
    | none => simp [get_form_data, djangoMultipartParse, hc]
    | some c => simp [get_form_data, djangoMultipartParse, hc, h0, hn]
  · intro jsonLoads multipartParse r querydict files hmp hempty habsent
    rcases habsent with h | h
    · simp [get_form_data, hmp, h, hempty]
    · simp only [get_form_data, hmp, Option.bind_eq_bind, Option.some_bind, h,
        Option.getD_none, hempty]
      cases hops : jsonLoads ((lookupQ "operations" querydict).getD "") <;>
        simp [hops, hempty]
  · intro jsonLoads multipartParse r querydict files s hmp hops hbad
    simp [get_form_data, hmp, hops, hbad]
  · intro jsonLoads multipartParse r querydict files s hmp hmap hbad
    cases hops : jsonLoads ((lookupQ "operations" querydict).getD "") <;>
      simp [get_form_data, hmp, hops, hmap, hbad]

/-- Witness for C3: with a concrete request carrying no headers, a
multipart parse returning a form without `operations`, and a
`json.loads` that rejects the empty string, `get_form_data` fails. -/
theorem claim_c3_form_data_failures_witness :
    get_form_data (fun s => if s = "null" then some Json.null else none)
      (fun _ _ _ => some ([("map", "null")], []))
      { consumer := { query_string := "", method := "POST", raw_headers := [] },
        body := "" } = none :=
  claim_c3_form_data_failures.2.2.1
    (fun s => if s = "null" then some Json.null else none)
    (fun _ _ _ => some ([("map", "null")], []))
    { consumer := { query_string := "", method := "POST", raw_headers := [] },
      body := "" }
    [("map", "null")] [] rfl rfl (Or.inl rfl)

/-! ### Response building -/

/-- Claim C4: the built `Result`'s status code is the sub-response's
status code when the resolvers set one (a positive status), 200 when
they set none, and it never depends on the serialized payload (in
particular not on whether the payload carries an `errors` array). -/
theorem claim_c4_status_code :
    (∀ (response_data : String) (sub : TemporalResponse) (c : Nat),
      sub.status_code = some c → 0 < c →
      (create_response response_data sub).status = c) ∧
    (∀ (response_data : String) (sub : TemporalResponse),
      sub.status_code = none →
      (create_response response_data sub).status = 200) ∧
    (∀ (d1 d2 : String) (sub : TemporalResponse),
      (create_response d1 sub).status = (create_response d2 sub).status) := by
  refine ⟨?_, ?_, ?_⟩
  · intro response_data sub c hc hpos
    have hc0 : ¬ c = 0 := Nat.pos_iff_ne_zero.mp hpos
    rw [create_response_eq]
    simp [hc, hc0]
  · intro response_data sub hnone
    rw [create_response_eq]
    simp [hnone]
  · intro d1 d2 sub
    rw [create_response_eq, create_response_eq]

/-- Witness for C4: a resolver-set status 418 becomes the `Result`'s
status. -/
theorem claim_c4_status_code_witness :
    (create_response "body" { status_code := some 418, headers := [] }).status
      = 418 :=
  claim_c4_status_code.1 "body" { status_code := some 418, headers := [] } 418
    rfl (by decide)

/-- Claim C5: the headers finally sent for a successfully built
response are the resolver-set sub-response headers, with the default
`Content-Type` (the `Result`'s `content_type`) appended exactly when
no `Content-Type` key was set by resolvers; when resolvers did set
`Content-Type`, their value is the one found in the sent headers. -/
theorem claim_c5_header_merge :
    (∀ (response_data : String) (sub : TemporalResponse),
      (handle (RunOutcome.ok (create_response response_data sub))).headers
        = if sub.headers.any (fun p => p.1 = "Content-Type") then sub.headers
          else sub.headers
            ++ [("Content-Type",
                  (create_response response_data sub).content_type)]) ∧
    (∀ (response_data : String) (sub : TemporalResponse) (v : String),
      lookupQ "Content-Type" sub.headers = some v →
      lookupQ "Content-Type"
        (handle (RunOutcome.ok (create_response response_data sub))).headers
        = some v) := by
  have hmain : ∀ (response_data : String) (sub : TemporalResponse),
      (handle (RunOutcome.ok (create_response response_data sub))).headers
        = if sub.headers.any (fun p => p.1 = "Content-Type") then sub.headers
          else sub.headers
            ++ [("Content-Type",
                  (create_response response_data sub).content_type)] := by
    intro response_data sub
    rw [handle_ok_headers, create_response_eq]
    cases hh : sub.headers.isEmpty with
    | true =>
      have h0 : sub.headers = [] := List.isEmpty_iff.mp hh
      simp [h0]
    | false => simp
  refine ⟨hmain, ?_⟩
  intro response_data sub v hv
  rw [hmain, if_pos (any_of_lookupQ "Content-Type" v sub.headers hv)]
  exact hv

/-- Witness for C5: a resolver-set `Content-Type: text/csv` survives
into the sent headers unchanged. -/
theorem claim_c5_header_merge_witness :
    lookupQ "Content-Type"
      (handle (RunOutcome.ok (create_response "body"
        { status_code := none,
          headers := [("Content-Type", "text/csv")] }))).headers
      = some "text/csv" :=
  claim_c5_header_merge.2 "body"
    { status_code := none, headers := [("Content-Type", "text/csv")] }
    "text/csv" rfl

/-- Claim C6: an `HTTPException` raised during processing is sent as a
response whose status is the exception's status code and whose body is
the plain-text reason, with no headers at all — no JSON envelope and
no default `Content-Type`. -/
theorem claim_c6_http_exception_plain :
    ∀ (status_code : Nat) (reason : String),
      handle (RunOutcome.httpError status_code reason)
        = { status := status_code, body := reason, headers := [] } ∧
      lookupQ "Content-Type"
        (handle (RunOutcome.httpError status_code reason)).headers = none := by
  intro status_code reason
  exact ⟨rfl, rfl⟩

/-! ### Header normalization -/

/-- Claim C7: every key of the adapter's headers mapping is
lower-cased (lower-casing it again changes nothing), `content_type` is
the lookup of the lower-case key `content-type` in that mapping, and
the mapping is insensitive to the case in which the transport
delivered the header names. -/
theorem claim_c7_lowercase_headers :
    (∀ (r : Request) (p : List Nat × String),
      p ∈ headersOf r → nameLower p.1 = p.1) ∧
    (∀ r : Request,
      content_type r = lookupH (strBytes "content-type") (headersOf r)) ∧
    (∀ (c : ConsumerScope) (body : String),
      headersOf
        { consumer :=
            { c with raw_headers :=
                c.raw_headers.map (fun p => (nameLower p.1, p.2)) },
          body := body }
        = headersOf { consumer := c, body := body }) := by
  have hbyte : ∀ b : Nat, byteLower (byteLower b) = byteLower b := by
    intro b
    unfold byteLower
    split
    · rename_i h
      have hout : ¬ (65 ≤ b + 32 ∧ b + 32 ≤ 90) := by omega
      rw [if_neg hout]
    · rfl
  have hname : ∀ n : List Nat, nameLower (nameLower n) = nameLower n := by
    intro n
    unfold nameLower
    rw [List.map_map]
    exact List.map_congr_left (fun b _ => hbyte b)
  refine ⟨?_, ?_, ?_⟩
  · intro r p hp
    unfold headersOf at hp
    rcases List.mem_map.mp hp with ⟨q, _, hq⟩
    rw [← hq]
    exact hname q.1
  · intro r
    rfl
  · intro c body
    unfold headersOf
    simp only [List.map_map]
    exact List.map_congr_left (fun p _ => by simp [Function.comp, hname p.1])

/-- Witness for C7: a mixed-case delivered header name
`Content-Type` appears lower-cased in the adapter's mapping. -/
theorem claim_c7_lowercase_headers_witness :
    nameLower (strBytes "content-type") = strBytes "content-type" :=
  claim_c7_lowercase_headers.1
    { consumer :=
        { query_string := "", method := "GET",
          raw_headers := [(strBytes "Content-Type", "application/json")] },
      body := "" }
    (strBytes "content-type", "application/json")
    (by decide)

/-! ### GraphiQL rendering -/

/-- Claim C8: `render_graphiql` yields a `Result` with content type
`text/html` and status 200, and its output depends only on the
`subscriptions_enabled` configuration flag — it is the same for any
two requests. -/
theorem claim_c8_graphiql_pure :
    ∀ (get_graphiql_html : Bool → String) (subscriptions_enabled : Bool)
      (r1 r2 : Request),
      (render_graphiql get_graphiql_html subscriptions_enabled r1).content_type
          = "text/html" ∧
      (render_graphiql get_graphiql_html subscriptions_enabled r1).status
          = 200 ∧
      render_graphiql get_graphiql_html subscriptions_enabled r1
          = render_graphiql get_graphiql_html subscriptions_enabled r2 := by
  intro get_graphiql_html subscriptions_enabled r1 r2
  exact ⟨rfl, rfl, rfl⟩

/-! ### Body capture -/

/-- Claim C9: the body bytes are captured once in the `Request` and
reused — `get_body` returns the captured bytes, every call in any
sequence of `get_body`/`get_form_data` calls observes the same
captured content (the observation of a call does not depend on its
position or on the other calls), and `get_form_data` reads exactly the
bytes `get_body` returns. -/
theorem claim_c9_body_captured_once :
    ∀ (jsonLoads : String → Option Json)
      (multipartParse : Option String → String → String →
        Option (List (String × String) × List (String × String)))
      (r : Request) (calls : List BodyCall),
      get_body r = r.body ∧
      runBodyCalls jsonLoads multipartParse r calls
        = calls.map (callResult jsonLoads multipartParse r) ∧
      get_form_data jsonLoads multipartParse r
        = get_form_data jsonLoads multipartParse
            { consumer := r.consumer, body := get_body r } := by
  intro jsonLoads multipartParse r calls
  refine ⟨rfl, ?_, rfl⟩
  induction calls with
  | nil => rfl
  | cons c rest ih => simp [runBodyCalls, ih]

end StrawberryChannels
